import Mathlib

/-!
Shallow embedding of the Smart-Parking-Management core: the vehicle record
(`Car`, from src/car.h and src/car.cpp), the occupancy store (`ParkingLot`,
from src/parking_lot.h and src/parking_lot.cpp) with its admission, lookup,
removal-with-billing and fee-calculation operations.

Modelling conventions:
* C++ `double` quantities are embedded as exact rationals (ℚ); the decimal
  literals 0.30, 0.18 and 50.0 of the source become the exact rationals
  3/10, 9/50 and 50.
* `std::chrono::system_clock::time_point` values are embedded as `Int`
  tick counts in seconds; `duration_cast<std::chrono::minutes>` truncates
  toward zero, which is `Int.tdiv _ 60`.
* The interactive prompting in `ParkingLot::parkCar` is I/O; its effect on
  the store state is captured by `parkCar` below, taking the collected
  attribute set (`CarDetails`) and the current instant as arguments.
-/

/-- The vehicle record, mirroring the public fields of `class Car`
(src/car.h), in declaration order.  `parkingTime` is the admission
instant in seconds. -/
structure Car where
  id : Int
  ownerName : String
  licensePlate : String
  model : String
  color : String
  fuelType : String
  phone : String
  email : String
  membership : String
  paymentMethod : String
  slot : String
  slotSize : String
  exitGate : String
  reservedSlot : Bool
  hourlyRate : ℚ
  dynamicPricing : Bool
  parkingTime : Int
deriving DecidableEq

/-- The default constructor `Car::Car()` (src/car.cpp lines 3-7):
`id = 0`, `hourlyRate = 50.0`, `dynamicPricing = false`,
`reservedSlot = false`, `parkingTime = now`, all strings empty. -/
def defaultCar (now : Int) : Car :=
  { id := 0
    ownerName := ""
    licensePlate := ""
    model := ""
    color := ""
    fuelType := ""
    phone := ""
    email := ""
    membership := ""
    paymentMethod := ""
    slot := ""
    slotSize := ""
    exitGate := ""
    reservedSlot := false
    hourlyRate := 50
    dynamicPricing := false
    parkingTime := now }

/-- The occupancy store: the `cars` vector and the `nextCarID` counter of
`class ParkingLot` (src/parking_lot.h). -/
structure ParkingLot where
  cars : List Car
  nextCarID : Int
deriving DecidableEq

/-- `ParkingLot::MAX_CAPACITY = 100` (src/parking_lot.h). -/
def MAX_CAPACITY : Nat := 100

/-- The constructor `ParkingLot::ParkingLot() : nextCarID(1001)`
(src/parking_lot.cpp line 39): empty car list, counter seeded at 1001. -/
def initLot : ParkingLot :=
  { cars := [], nextCarID := 1001 }

/-- `duration_cast<std::chrono::minutes>(now - admissionTime).count()`:
the elapsed whole minutes, truncated toward zero (C++ `duration_cast`
truncation), possibly negative. -/
def elapsedMinutes (now adm : Int) : Int :=
  (now - adm).tdiv 60

/-- `std::max(0.0, duration_cast<minutes>(now - parkingTime).count() / 60.0)`:
the clamped elapsed hours used by both billing paths
(src/parking_lot.cpp lines 268-269 and 338-339). -/
def hoursParked (adm now : Int) : ℚ :=
  max 0 ((elapsedMinutes now adm : ℚ) / 60)

/-- `ParkingLot::calculateFee` (src/parking_lot.cpp lines 335-351):
`subtotal = hours * hourlyRate`; if `dynamicPricing`, a 30% discount when
`hours > 5.0`, then 18% GST on the (possibly discounted) subtotal; the
plain subtotal otherwise. -/
def ParkingLot.calculateFee (c : Car) (now : Int) : ℚ :=
  let hours := hoursParked c.parkingTime now
  let subtotal := hours * c.hourlyRate
  if c.dynamicPricing then
    let subtotal2 := if hours > 5 then subtotal - subtotal * 0.30 else subtotal
    subtotal2 + subtotal2 * 0.18
  else
    subtotal

/-- The frozen bill breakdown assembled by `ParkingLot::removeCarByIdAndOwner`
(src/parking_lot.cpp lines 281-294).  `gross` is the pre-discount gross
`hours * hourlyRate` as printed on the bill. -/
structure Bill where
  carID : Int
  ownerName : String
  licensePlate : String
  hours : ℚ
  rate : ℚ
  gross : ℚ
  discount : ℚ
  gst : ℚ
  total : ℚ
deriving DecidableEq

/-- The billing block of `ParkingLot::removeCarByIdAndOwner`
(src/parking_lot.cpp lines 267-294), evaluated on the matched car:
`gross = hours * rate`; if `dynamicPricing` and `hours > 5.0` a 30%
discount is subtracted from `gross`; GST is 18% of the discounted gross
(only under `dynamicPricing`); `total = gross + gst`. -/
def makeBill (c : Car) (now : Int) : Bill :=
  let hours := hoursParked c.parkingTime now
  let gross0 := hours * c.hourlyRate
  let discount := if c.dynamicPricing ∧ hours > 5 then gross0 * 0.30 else 0
  let gross := gross0 - discount
  let gst := if c.dynamicPricing then gross * 0.18 else 0
  { carID := c.id
    ownerName := c.ownerName
    licensePlate := c.licensePlate
    hours := hours
    rate := c.hourlyRate
    gross := gross0
    discount := discount
    gst := gst
    total := gross + gst }

/-- The exact-match predicate of `ParkingLot::removeCarByIdAndOwner`
(src/parking_lot.cpp lines 262-263): `c.id == id && c.ownerName == owner`. -/
def matchesIdOwner (i : Int) (owner : String) (c : Car) : Bool :=
  c.id == i && c.ownerName == owner

/-- `ParkingLot::removeCarByIdAndOwner` (src/parking_lot.cpp lines 261-303):
`find_if` for the first record matching both `id` and `ownerName` exactly;
if none, return false (here: `none`) with the store unchanged; otherwise
freeze the bill and `erase` the found record (erasing the first match). -/
def removeCarByIdAndOwner (i : Int) (owner : String) (now : Int)
    (s : ParkingLot) : Option Bill × ParkingLot :=
  match s.cars.find? (matchesIdOwner i owner) with
  | none => (none, s)
  | some c =>
      (some (makeBill c now),
       { s with cars := s.cars.eraseP (matchesIdOwner i owner) })

/-- `ParkingLot::getCarByID` (src/parking_lot.cpp lines 314-318): linear
`find_if` on `id`; a copy of the first match, else a default-constructed
`Car()`.  The `now` argument models the `system_clock::now()` call inside
the default constructor. -/
def getCarByID (s : ParkingLot) (i : Int) (now : Int) : Car :=
  match s.cars.find? (fun c => c.id == i) with
  | some c => c
  | none => defaultCar now

/-- `ParkingLot::testAddCar` (src/parking_lot.cpp lines 361-365): append
the caller-supplied car verbatim when below capacity; otherwise do
nothing.  The counter is not touched. -/
def testAddCar (c : Car) (s : ParkingLot) : ParkingLot :=
  if s.cars.length < MAX_CAPACITY then { s with cars := s.cars ++ [c] } else s

/-- The attribute set collected interactively by `ParkingLot::parkCar`
(src/parking_lot.cpp lines 104-189) before the record is built: every
field of the record except `id` and the admission instant, plus the
backdating duration `parkingHours` (0 means "park now"). -/
structure CarDetails where
  ownerName : String
  licensePlate : String
  model : String
  color : String
  fuelType : String
  phone : String
  email : String
  membership : String
  paymentMethod : String
  slot : String
  slotSize : String
  reservedSlot : Bool
  exitGate : String
  hourlyRate : ℚ
  dynamicPricing : Bool
  parkingHours : ℚ
deriving DecidableEq

/-- Truncation toward zero of a rational, modelling
`duration_cast<system_clock::duration>(duration<double>(x))`. -/
def qtrunc (x : ℚ) : Int :=
  if 0 ≤ x then ⌊x⌋ else ⌈x⌉

/-- The record built by `ParkingLot::parkCar` (src/parking_lot.cpp lines
191-198): the `Car` constructor stamps `parkingTime = now`, then a
positive `parkingHours` backdates it by that many hours. -/
def mkCar (i : Int) (d : CarDetails) (now : Int) : Car :=
  { id := i
    ownerName := d.ownerName
    licensePlate := d.licensePlate
    model := d.model
    color := d.color
    fuelType := d.fuelType
    phone := d.phone
    email := d.email
    membership := d.membership
    paymentMethod := d.paymentMethod
    slot := d.slot
    slotSize := d.slotSize
    exitGate := d.exitGate
    reservedSlot := d.reservedSlot
    hourlyRate := d.hourlyRate
    dynamicPricing := d.dynamicPricing
    parkingTime := if d.parkingHours > 0 then now - qtrunc (d.parkingHours * 3600) else now }

/-- The state effect of `ParkingLot::parkCar` (src/parking_lot.cpp lines
104-205): the record is constructed with `nextCarID++` — the counter is
incremented on every attempt, before the capacity check — and the record
is appended only when `cars.size() < MAX_CAPACITY` (the at-capacity case
is silently dropped). -/
def parkCar (d : CarDetails) (now : Int) (s : ParkingLot) : ParkingLot :=
  if s.cars.length < MAX_CAPACITY then
    { cars := s.cars ++ [mkCar s.nextCarID d now], nextCarID := s.nextCarID + 1 }
  else
    { cars := s.cars, nextCarID := s.nextCarID + 1 }

/-- One externally invocable store mutation: an interactive admission, a
test-only admission, or a removal-with-billing. -/
inductive LotOp where
  | park (d : CarDetails) (now : Int)
  | testAdd (c : Car)
  | removeBill (i : Int) (owner : String) (now : Int)
deriving DecidableEq

/-- Apply one operation to the store. -/
def applyOp (s : ParkingLot) : LotOp → ParkingLot
  | .park d now => parkCar d now s
  | .testAdd c => testAddCar c s
  | .removeBill i owner now => (removeCarByIdAndOwner i owner now s).2

/-- Run a sequence of operations from a starting state. -/
def runOps (s : ParkingLot) (ops : List LotOp) : ParkingLot :=
  ops.foldl applyOp s

/-- The ids handed out by the successful interactive admissions of a run,
in order: `parkCar` stores a record carrying the pre-increment counter
value exactly when the store is below capacity. -/
def assignedIDs (s : ParkingLot) : List LotOp → List Int
  | [] => []
  | op :: ops =>
      (match op with
       | .park _ _ => if s.cars.length < MAX_CAPACITY then [s.nextCarID] else []
       | _ => []) ++ assignedIDs (applyOp s op) ops

/-- Reference fee formula, written from the words of the specification
(spec §4.4): `m` is the whole number of elapsed minutes with fractional
minutes truncated and clamped below at zero, `h = m / 60.0`,
`gross = h * hourlyRate`; without dynamic pricing the result is `gross`;
with it, a 30% discount applies only when `h` is strictly greater than
5.0, and 18% tax is added on top. -/
def calculateFeeRef (c : Car) (now : Int) : ℚ :=
  let m : Int := max 0 (elapsedMinutes now c.parkingTime)
  let h : ℚ := (m : ℚ) / 60
  let gross := h * c.hourlyRate
  if c.dynamicPricing then
    (if h > 5 then gross * 0.70 else gross) * 1.18
  else
    gross

/-- An arbitrary fully-populated attribute set (all text fields empty,
the 50.0 default rate of the prompt, no backdating), used as a concrete
admission input. -/
def dEmpty : CarDetails :=
  { ownerName := ""
    licensePlate := ""
    model := ""
    color := ""
    fuelType := ""
    phone := ""
    email := ""
    membership := ""
    paymentMethod := ""
    slot := ""
    slotSize := ""
    reservedSlot := false
    exitGate := ""
    hourlyRate := 50
    dynamicPricing := false
    parkingHours := 0 }

/-- A store already holding `MAX_CAPACITY` records. -/
def fullLot : ParkingLot :=
  { cars := List.replicate MAX_CAPACITY (defaultCar 0), nextCarID := 1001 }

/-- The car of the test fixture `createCar(1001, "John Doe")`
(src/parking_lot_test.cpp lines 24-37), admitted at instant 0. -/
def johnCar : Car :=
  { id := 1001
    ownerName := "John Doe"
    licensePlate := "MH12AB1234"
    model := "Model X"
    color := "Color"
    fuelType := "Fuel"
    phone := "0000000000"
    email := "email@example.com"
    membership := "None"
    paymentMethod := "Cash"
    slot := "S1"
    slotSize := "Medium"
    exitGate := "Exit A"
    reservedSlot := false
    hourlyRate := 50
    dynamicPricing := false
    parkingTime := 0 }

/-- A store holding exactly the John Doe record. -/
def storeJohn : ParkingLot :=
  { cars := [johnCar], nextCarID := 1002 }

/-- A dynamic-pricing record with `hourlyRate = 100` admitted at instant
0, used for the 5-hour boundary scenario. -/
def carBoundary : Car :=
  { johnCar with id := 1, hourlyRate := 100, dynamicPricing := true }

/-- A future-dated record: admitted at instant 1000000, evaluated at 0. -/
def carFuture : Car :=
  { johnCar with id := 2, parkingTime := 1000000 }

/-- A zero-rate record admitted at instant 0. -/
def carZeroRate : Car :=
  { johnCar with id := 3, hourlyRate := 0 }

-- ------------------------------------------------------------------
-- Helper lemmas
-- ------------------------------------------------------------------

lemma max_zero_div_sixty (q : ℚ) : max 0 q / 60 = max 0 (q / 60) := by
  rcases le_total q 0 with h | h
  · have h60 : q / 60 ≤ 0 := by
      rw [div_eq_mul_inv]
      exact mul_nonpos_of_nonpos_of_nonneg h (by norm_num)
    rw [max_eq_left h, max_eq_left h60]
    norm_num
  · rw [max_eq_right h, max_eq_right (div_nonneg h (by norm_num))]

lemma tdiv_sixty_nonpos {d : Int} (h : d < 60) : d.tdiv 60 ≤ 0 := by
  rcases le_or_lt 0 d with h0 | h0
  · rw [Int.tdiv_eq_ediv h0 (by norm_num)]
    omega
  · have h1 : d = -(-d) := by ring
    have h2 : 0 ≤ (-d).tdiv 60 := Int.tdiv_nonneg (by omega) (by norm_num)
    rw [h1, Int.neg_tdiv]
    omega

lemma hoursParked_eq_zero {adm now : Int} (h : now - adm < 60) :
    hoursParked adm now = 0 := by
  unfold hoursParked elapsedMinutes
  have h1 : ((now - adm).tdiv 60 : ℚ) ≤ 0 := by
    exact_mod_cast tdiv_sixty_nonpos h
  have h2 : ((now - adm).tdiv 60 : ℚ) / 60 ≤ 0 := by
    rw [div_eq_mul_inv]
    exact mul_nonpos_of_nonpos_of_nonneg h1 (by norm_num)
  exact max_eq_left h2

lemma hoursParked_nonneg (adm now : Int) : 0 ≤ hoursParked adm now :=
  le_max_left 0 _

lemma hoursParked_cast_max (adm now : Int) :
    ((max 0 (elapsedMinutes now adm) : Int) : ℚ) / 60 = hoursParked adm now := by
  unfold hoursParked
  rw [Int.cast_max, Int.cast_zero]
  exact max_zero_div_sixty _

-- ------------------------------------------------------------------
-- Claim theorems
-- ------------------------------------------------------------------

/-- C1: `calculateFee` coincides with the reference formula of the spec —
minute-truncated clamped elapsed hours, gross = hours × rate, dynamic
pricing applying a 30% discount only strictly beyond 5.0 hours and then
18% tax — and any stay shorter than one whole minute is billed exactly
0. -/
theorem calculateFee_matches_reference (c : Car) (now : Int) :
    ParkingLot.calculateFee c now = calculateFeeRef c now ∧
    (now - c.parkingTime < 60 → ParkingLot.calculateFee c now = 0) := by
  constructor
  · simp only [ParkingLot.calculateFee, calculateFeeRef]
    rw [hoursParked_cast_max]
    split_ifs <;> ring
  · intro h60
    simp only [ParkingLot.calculateFee, hoursParked_eq_zero h60]
    split_ifs <;> ring

/-- Witness for C1 at a concrete input: the default car admitted at
instant 0, evaluated 30 seconds later. -/
theorem calculateFee_matches_reference_witness :
    ParkingLot.calculateFee (defaultCar 0) 30 = calculateFeeRef (defaultCar 0) 30 ∧
    ParkingLot.calculateFee (defaultCar 0) 30 = 0 :=
  ⟨(calculateFee_matches_reference (defaultCar 0) 30).1,
   (calculateFee_matches_reference (defaultCar 0) 30).2 (by norm_num [defaultCar])⟩

/-- C7: with dynamic pricing and rate 100, exactly 5.0 elapsed hours
(300 whole minutes, instant 18000 from admission at 0) is billed 590 —
no discount, 18% tax on 500 — while 6.0 elapsed hours is billed 495.6,
strictly below 600. -/
theorem dynamic_pricing_boundary :
    ParkingLot.calculateFee carBoundary 18000 = 590 ∧
    ParkingLot.calculateFee carBoundary 21600 = 495.6 ∧
    ParkingLot.calculateFee carBoundary 21600 < 600 := by
  have h5 : hoursParked carBoundary.parkingTime 18000 = 5 := by
    have hm : elapsedMinutes 18000 carBoundary.parkingTime = 300 := by decide
    unfold hoursParked
    rw [hm]
    norm_num
  have h6 : hoursParked carBoundary.parkingTime 21600 = 6 := by
    have hm : elapsedMinutes 21600 carBoundary.parkingTime = 360 := by decide
    unfold hoursParked
    rw [hm]
    norm_num
  have hd : carBoundary.dynamicPricing = true := rfl
  have hr : carBoundary.hourlyRate = 100 := rfl
  refine ⟨?_, ?_, ?_⟩ <;>
    simp only [ParkingLot.calculateFee, h5, h6, hd, hr, if_true] <;> norm_num

/-- C8: with a non-negative rate the fee is never negative, also for a
future-dated admission; a zero rate always yields a zero fee. -/
theorem fee_nonneg_zero_rate (c : Car) (now : Int) :
    (0 ≤ c.hourlyRate → 0 ≤ ParkingLot.calculateFee c now) ∧
    (c.hourlyRate = 0 → ParkingLot.calculateFee c now = 0) := by
  have hh := hoursParked_nonneg c.parkingTime now
  constructor
  · intro hr
    have hs : 0 ≤ hoursParked c.parkingTime now * c.hourlyRate := mul_nonneg hh hr
    simp only [ParkingLot.calculateFee]
    split_ifs <;> linarith
  · intro hr
    simp only [ParkingLot.calculateFee, hr, mul_zero]
    split_ifs <;> ring

/-- Witness for C8: a future-dated record (admitted at instant 1000000,
evaluated at 0) has a non-negative fee, and a zero-rate record is billed
exactly 0 after any duration. -/
theorem fee_nonneg_zero_rate_witness :
    0 ≤ ParkingLot.calculateFee carFuture 0 ∧
    ParkingLot.calculateFee carZeroRate 12345 = 0 :=
  ⟨(fee_nonneg_zero_rate carFuture 0).1 (by norm_num [carFuture, johnCar]),
   (fee_nonneg_zero_rate carZeroRate 12345).2 (by norm_num [carZeroRate, johnCar])⟩

lemma makeBill_total_eq_fee (c : Car) (now : Int) :
    (makeBill c now).total = ParkingLot.calculateFee c now := by
  simp only [makeBill, ParkingLot.calculateFee]
  split_ifs with h1 h2 h3 <;>
    first
      | ring1
      | exact absurd h1.2 h3
      | exact absurd h1.1 h2
      | exact absurd (And.intro (by assumption) (by assumption)) h1

lemma makeBill_breakdown (c : Car) (now : Int) :
    (makeBill c now).total
      = (makeBill c now).gross - (makeBill c now).discount + (makeBill c now).gst := by
  simp only [makeBill]

/-- C6: a bill produced by `removeCarByIdAndOwner` totals exactly
`calculateFee` of the removed record at the same instant, and its frozen
breakdown is consistent: total = pre-discount gross − discount + tax. -/
theorem removeAndBill_total_eq_fee (s : ParkingLot) (i : Int) (o : String)
    (now : Int) (b : Bill)
    (hb : (removeCarByIdAndOwner i o now s).1 = some b) :
    ∃ c ∈ s.cars, c.id = i ∧ c.ownerName = o ∧
      b.total = ParkingLot.calculateFee c now ∧
      b.total = b.gross - b.discount + b.gst := by
  unfold removeCarByIdAndOwner at hb
  cases hfind : s.cars.find? (matchesIdOwner i o) with
  | none =>
      rw [hfind] at hb
      simp at hb
  | some c =>
      rw [hfind] at hb
      simp only [Option.some.injEq] at hb
      have hmem := List.mem_of_find?_eq_some hfind
      have hp := List.find?_some hfind
      unfold matchesIdOwner at hp
      simp only [Bool.and_eq_true, beq_iff_eq] at hp
      exact ⟨c, hmem, hp.1, hp.2, by rw [← hb]; exact makeBill_total_eq_fee c now,
        by rw [← hb]; exact makeBill_breakdown c now⟩

/-- Witness for C6: removing the John Doe record at instant 0 produces a
bill whose total agrees with the pure fee calculator. -/
theorem removeAndBill_total_eq_fee_witness :
    ∃ c ∈ storeJohn.cars, c.id = 1001 ∧ c.ownerName = "John Doe" ∧
      (makeBill johnCar 0).total = ParkingLot.calculateFee c 0 ∧
      (makeBill johnCar 0).total
        = (makeBill johnCar 0).gross - (makeBill johnCar 0).discount + (makeBill johnCar 0).gst :=
  removeAndBill_total_eq_fee storeJohn 1001 "John Doe" 0 (makeBill johnCar 0) (by rfl)

lemma find?_append_first {α : Type} {p : α → Bool} (l₁ : List α) (c : α) (l₂ : List α)
    (hc : p c = true) (hl : ∀ a ∈ l₁, ¬p a = true) :
    (l₁ ++ c :: l₂).find? p = some c := by
  induction l₁ with
  | nil => simpa using List.find?_cons_of_pos l₂ hc
  | cons a l ih =>
      rw [List.cons_append, List.find?_cons_of_neg _ (hl a (by simp))]
      exact ih fun b hb => hl b (by simp [hb])

/-- C3: `removeCarByIdAndOwner` succeeds exactly when some stored record
matches both the id and the owner name by exact string equality; on
failure the store is unchanged; on success the first matching record in
insertion order is removed. -/
theorem removal_exact_match (s : ParkingLot) (i : Int) (o : String) (now : Int) :
    ((removeCarByIdAndOwner i o now s).1.isSome
        ↔ ∃ c ∈ s.cars, c.id = i ∧ c.ownerName = o) ∧
    ((removeCarByIdAndOwner i o now s).1 = none →
      (removeCarByIdAndOwner i o now s).2 = s) ∧
    ((removeCarByIdAndOwner i o now s).1.isSome →
      ∃ l₁ c l₂, s.cars = l₁ ++ c :: l₂ ∧ c.id = i ∧ c.ownerName = o ∧
        (∀ c' ∈ l₁, ¬(c'.id = i ∧ c'.ownerName = o)) ∧
        (removeCarByIdAndOwner i o now s).2.cars = l₁ ++ l₂) := by
  cases hfind : s.cars.find? (matchesIdOwner i o) with
  | none =>
      have hres : removeCarByIdAndOwner i o now s = (none, s) := by
        unfold removeCarByIdAndOwner
        rw [hfind]
      rw [hres]
      refine ⟨?_, fun _ => rfl, ?_⟩
      · simp only [Option.isSome_none, Bool.false_eq_true, false_iff]
        rintro ⟨c, hc, hid, hown⟩
        have := List.find?_eq_none.mp hfind c hc
        unfold matchesIdOwner at this
        simp [hid, hown] at this
      · intro h
        simp at h
  | some c =>
      have hres : removeCarByIdAndOwner i o now s
          = (some (makeBill c now),
             { s with cars := s.cars.eraseP (matchesIdOwner i o) }) := by
        unfold removeCarByIdAndOwner
        rw [hfind]
      have hp := List.find?_some hfind
      have hmem := List.mem_of_find?_eq_some hfind
      unfold matchesIdOwner at hp
      simp only [Bool.and_eq_true, beq_iff_eq] at hp
      rw [hres]
      refine ⟨iff_of_true (by simp) ⟨c, hmem, hp.1, hp.2⟩, ?_, ?_⟩
      · intro h
        simp at h
      · intro _
        obtain ⟨a, l₁, l₂, hl₁, hpa, hsplit, herase⟩ :=
          @List.exists_of_eraseP Car (matchesIdOwner i o) s.cars c hmem
            (by unfold matchesIdOwner; simp [hp.1, hp.2])
        unfold matchesIdOwner at hpa
        simp only [Bool.and_eq_true, beq_iff_eq] at hpa
        refine ⟨l₁, a, l₂, hsplit, hpa.1, hpa.2, ?_, by simpa using herase⟩
        intro c' hc' hcon
        have := hl₁ c' hc'
        unfold matchesIdOwner at this
        simp [hcon.1, hcon.2] at this

/-- Witness for C3, the spec's own scenario: with only the record
`(id = 1001, owner = "John Doe")` stored, removal with owner `"john doe"`
fails and leaves the store unchanged, while removal with `"John Doe"`
removes exactly that record. -/
theorem removal_exact_match_witness :
    (removeCarByIdAndOwner 1001 "john doe" 0 storeJohn).2 = storeJohn ∧
    (∃ l₁ c l₂, storeJohn.cars = l₁ ++ c :: l₂ ∧ c.id = 1001 ∧ c.ownerName = "John Doe" ∧
      (∀ c' ∈ l₁, ¬(c'.id = 1001 ∧ c'.ownerName = "John Doe")) ∧
      (removeCarByIdAndOwner 1001 "John Doe" 0 storeJohn).2.cars = l₁ ++ l₂) :=
  ⟨(removal_exact_match storeJohn 1001 "john doe" 0).2.1 (by rfl),
   (removal_exact_match storeJohn 1001 "John Doe" 0).2.2 (by rfl)⟩

/-- Counterexample to C9 as stated: the sentinel record returned for an
id with no match does carry `id == 0`, but it is not zero-valued — its
`hourlyRate` is the constructor default 50, not 0. -/
theorem getCarByID_sentinel_not_zero :
    (getCarByID initLot 9999 0).id = 0 ∧ (getCarByID initLot 9999 0).hourlyRate ≠ 0 := by
  have h : (getCarByID initLot 9999 0).hourlyRate = 50 := rfl
  exact ⟨rfl, by rw [h]; norm_num⟩

/-- C9 (amended): `getCarByID` returns the first stored record whose id
matches; when none matches it returns the default-constructed sentinel
record, which has `id == 0` but the default `hourlyRate` 50 (so it is
default-valued, not fully zero-valued), rather than raising an error. -/
theorem getCarByID_first_match_or_default (s : ParkingLot) (i : Int) (now : Int) :
    ((∀ c ∈ s.cars, c.id ≠ i) →
      getCarByID s i now = defaultCar now ∧
        (defaultCar now).id = 0 ∧ (defaultCar now).hourlyRate = 50) ∧
    (∀ l₁ c l₂, s.cars = l₁ ++ c :: l₂ → c.id = i → (∀ c' ∈ l₁, c'.id ≠ i) →
      getCarByID s i now = c) := by
  constructor
  · intro hall
    have hfind : s.cars.find? (fun c => c.id == i) = none :=
      List.find?_eq_none.mpr fun x hx => by simp [hall x hx]
    unfold getCarByID
    rw [hfind]
    exact ⟨rfl, rfl, rfl⟩
  · intro l₁ c l₂ hsplit hid hall
    have hfind : s.cars.find? (fun c => c.id == i) = some c := by
      rw [hsplit]
      exact find?_append_first l₁ c l₂ (by simp [hid]) fun a ha => by simp [hall a ha]
    unfold getCarByID
    rw [hfind]

/-- Witness for C9 (amended): in the one-record John Doe store, looking
up 9999 yields the default sentinel and looking up 1001 yields the John
Doe record itself. -/
theorem getCarByID_first_match_or_default_witness :
    getCarByID storeJohn 9999 0 = defaultCar 0 ∧ getCarByID storeJohn 1001 0 = johnCar :=
  ⟨((getCarByID_first_match_or_default storeJohn 9999 0).1 (by decide)).1,
   (getCarByID_first_match_or_default storeJohn 1001 0).2 [] johnCar [] rfl rfl
     (by simp)⟩

lemma applyOp_length_le {s : ParkingLot} (op : LotOp)
    (h : s.cars.length ≤ MAX_CAPACITY) :
    (applyOp s op).cars.length ≤ MAX_CAPACITY := by
  cases op with
  | park d now =>
      simp only [applyOp, parkCar]
      split_ifs with hc
      · simp only [List.length_append, List.length_cons, List.length_nil]
        omega
      · exact h
  | testAdd c =>
      simp only [applyOp, testAddCar]
      split_ifs with hc
      · simp only [List.length_append, List.length_cons, List.length_nil]
        omega
      · exact h
  | removeBill i o now =>
      simp only [applyOp]
      cases hfind : s.cars.find? (matchesIdOwner i o) with
      | none =>
          have hres : (removeCarByIdAndOwner i o now s).2 = s := by
            unfold removeCarByIdAndOwner
            rw [hfind]
          rw [hres]
          exact h
      | some c =>
          have hres : (removeCarByIdAndOwner i o now s).2.cars
              = s.cars.eraseP (matchesIdOwner i o) := by
            unfold removeCarByIdAndOwner
            rw [hfind]
          rw [hres]
          exact le_trans (List.eraseP_sublist s.cars).length_le h

lemma runOps_length_le (ops : List LotOp) :
    ∀ s : ParkingLot, s.cars.length ≤ MAX_CAPACITY →
      (runOps s ops).cars.length ≤ MAX_CAPACITY := by
  induction ops with
  | nil => exact fun s h => h
  | cons op ops ih => exact fun s h => ih (applyOp s op) (applyOp_length_le op h)

/-- C2: the occupancy count never exceeds 100 under any sequence of
operations from the initial store, and at exactly 100 records both
admission paths leave the record sequence untouched (silently, with no
error). -/
theorem capacity_invariant :
    (∀ ops : List LotOp, (runOps initLot ops).cars.length ≤ MAX_CAPACITY) ∧
    (∀ s : ParkingLot, s.cars.length = MAX_CAPACITY →
      (∀ d now, (parkCar d now s).cars = s.cars) ∧
      (∀ c, (testAddCar c s).cars = s.cars)) := by
  constructor
  · exact fun ops => runOps_length_le ops initLot (by simp [initLot])
  · intro s hs
    constructor
    · intro d now
      simp [parkCar, hs]
    · intro c
      simp [testAddCar, hs]

/-- Witness for C2: the empty run keeps the count within bound, and at a
concrete 100-record store both admission paths change nothing. -/
theorem capacity_invariant_witness :
    (runOps initLot []).cars.length ≤ MAX_CAPACITY ∧
    (parkCar dEmpty 0 fullLot).cars = fullLot.cars ∧
    (testAddCar (defaultCar 0) fullLot).cars = fullLot.cars :=
  ⟨capacity_invariant.1 [],
   (capacity_invariant.2 fullLot (by simp [fullLot])).1 dEmpty 0,
   (capacity_invariant.2 fullLot (by simp [fullLot])).2 (defaultCar 0)⟩

/-- Counterexample to C4 as stated: at a concrete full store the
admission is rejected — the record sequence is unchanged — yet the
next-identifier counter does not stay put: `Car car(nextCarID++, ...)`
runs before the capacity check. -/
theorem counter_advances_on_rejected_admission :
    (parkCar dEmpty 0 fullLot).cars = fullLot.cars ∧
    (parkCar dEmpty 0 fullLot).nextCarID ≠ fullLot.nextCarID := by
  have hcars : (parkCar dEmpty 0 fullLot).cars = fullLot.cars := by
    simp [parkCar, fullLot]
  have hnext : (parkCar dEmpty 0 fullLot).nextCarID = 1002 := by
    simp [parkCar, fullLot]
  exact ⟨hcars, by rw [hnext]; decide⟩

/-- C4 (amended): the next-identifier counter advances by exactly one on
every admission attempt via `parkCar`, successful or rejected at
capacity — the counter value is consumed by the record constructor
before the capacity check. -/
theorem counter_advances_every_attempt (s : ParkingLot) (d : CarDetails) (now : Int) :
    (parkCar d now s).nextCarID = s.nextCarID + 1 := by
  simp only [parkCar]
  split_ifs <;> rfl

lemma applyOp_nextCarID_park (s : ParkingLot) (d : CarDetails) (now : Int) :
    (applyOp s (.park d now)).nextCarID = s.nextCarID + 1 := by
  simp only [applyOp, parkCar]
  split_ifs <;> rfl

lemma applyOp_nextCarID_testAdd (s : ParkingLot) (c : Car) :
    (applyOp s (.testAdd c)).nextCarID = s.nextCarID := by
  simp only [applyOp, testAddCar]
  split_ifs <;> rfl

lemma applyOp_nextCarID_removeBill (s : ParkingLot) (i : Int) (o : String) (now : Int) :
    (applyOp s (.removeBill i o now)).nextCarID = s.nextCarID := by
  simp only [applyOp]
  cases hfind : s.cars.find? (matchesIdOwner i o) with
  | none =>
      have hres : (removeCarByIdAndOwner i o now s).2 = s := by
        unfold removeCarByIdAndOwner
        rw [hfind]
      rw [hres]
  | some c =>
      have hres : (removeCarByIdAndOwner i o now s).2.nextCarID = s.nextCarID := by
        unfold removeCarByIdAndOwner
        rw [hfind]
      rw [hres]

lemma assignedIDs_chain_bound (ops : List LotOp) :
    ∀ s : ParkingLot, (assignedIDs s ops).Chain' (· < ·) ∧
      ∀ j ∈ assignedIDs s ops, s.nextCarID ≤ j := by
  induction ops with
  | nil => exact fun s => ⟨List.chain'_nil, by simp [assignedIDs]⟩
  | cons op ops ih =>
      intro s
      obtain ⟨hch, hbd⟩ := ih (applyOp s op)
      cases op with
      | park d now =>
          rw [applyOp_nextCarID_park s d now] at hbd
          by_cases hc : s.cars.length < MAX_CAPACITY
          · have heq : assignedIDs s (LotOp.park d now :: ops)
                = s.nextCarID :: assignedIDs (applyOp s (.park d now)) ops := by
              simp [assignedIDs, hc]
            rw [heq]
            constructor
            · exact List.chain'_cons'.mpr
                ⟨fun y hy =>
                  lt_of_lt_of_le (by omega) (hbd y (List.mem_of_mem_head? hy)), hch⟩
            · intro j hj
              rcases List.mem_cons.mp hj with h | h
              · exact h ▸ le_refl _
              · exact le_trans (by omega) (hbd j h)
          · have heq : assignedIDs s (LotOp.park d now :: ops)
                = assignedIDs (applyOp s (.park d now)) ops := by
              simp [assignedIDs, hc]
            rw [heq]
            exact ⟨hch, fun j hj => le_trans (by omega) (hbd j hj)⟩
      | testAdd c =>
          rw [applyOp_nextCarID_testAdd s c] at hbd
          have heq : assignedIDs s (LotOp.testAdd c :: ops)
              = assignedIDs (applyOp s (.testAdd c)) ops := by
            simp [assignedIDs]
          rw [heq]
          exact ⟨hch, hbd⟩
      | removeBill i o now =>
          rw [applyOp_nextCarID_removeBill s i o now] at hbd
          have heq : assignedIDs s (LotOp.removeBill i o now :: ops)
              = assignedIDs (applyOp s (.removeBill i o now)) ops := by
            simp [assignedIDs]
          rw [heq]
          exact ⟨hch, hbd⟩

/-- C5: the counter starts at 1001 and the ids handed out by successful
admissions over any run — removals interleaved — form a strictly
increasing sequence, hence no id is ever reused or assigned twice. -/
theorem admission_ids_unique :
    initLot.nextCarID = 1001 ∧
    ∀ ops : List LotOp,
      (assignedIDs initLot ops).Chain' (· < ·) ∧ (assignedIDs initLot ops).Nodup := by
  refine ⟨rfl, fun ops => ?_⟩
  obtain ⟨hch, _⟩ := assignedIDs_chain_bound ops initLot
  refine ⟨hch, ?_⟩
  have hpw : (assignedIDs initLot ops).Pairwise (· < ·) :=
    List.chain'_iff_pairwise.mp hch
  exact hpw.imp fun h => ne_of_lt h

/-- C10: `testAddCar` appends the caller's record verbatim below
capacity — id kept, counter untouched, no duplicate check, so two
records with equal ids can coexist — and leaves a full store unchanged. -/
theorem testAddCar_verbatim :
    (∀ (s : ParkingLot) (c : Car), s.cars.length < MAX_CAPACITY →
      (testAddCar c s).cars = s.cars ++ [c] ∧ (testAddCar c s).nextCarID = s.nextCarID) ∧
    (∀ (s : ParkingLot) (c : Car), s.cars.length = MAX_CAPACITY → testAddCar c s = s) ∧
    (testAddCar johnCar (testAddCar johnCar initLot)).cars.map Car.id = [1001, 1001] := by
  refine ⟨?_, ?_, ?_⟩
  · intro s c h
    simp [testAddCar, h]
  · intro s c h
    simp [testAddCar, h]
  · rfl

/-- Witness for C10: adding the John Doe car to the empty store appends
it verbatim with the counter untouched, and adding it to a full store
changes nothing. -/
theorem testAddCar_verbatim_witness :
    (testAddCar johnCar initLot).cars = initLot.cars ++ [johnCar] ∧
    (testAddCar johnCar initLot).nextCarID = initLot.nextCarID ∧
    testAddCar johnCar fullLot = fullLot :=
  ⟨(testAddCar_verbatim.1 initLot johnCar (by decide)).1,
   (testAddCar_verbatim.1 initLot johnCar (by decide)).2,
   testAddCar_verbatim.2.1 fullLot johnCar (by simp [fullLot])⟩
